import Mathlib

/-!
Shallow embedding of the market-data layer of the stock-trading simulator
(`stock_sim`): the provider adapters (Finnhub, Yahoo Finance, Polygon,
Alpha Vantage), the aggregating `StockDataService`, the synthetic
mock-data generator, and the Socket.IO subscription/broadcast state of
`server.js`.

Modelling conventions:
- JS numbers are modelled as `ℚ` (prices) and `ℤ` (volumes, epoch values).
- Dates are modelled at day granularity: a candle's `date` field is the
  epoch day number of its `YYYY-MM-DD` date string, and `getDay()` is
  `(d + 4) % 7` (day 0 = 1970-01-01 was a Thursday, `getDay = 4`).
- `x.toFixed(2)` followed by `parseFloat` is modelled by rounding to the
  nearest hundredth (`round2`).
- Upstream HTTP responses are inputs of the embedding: each adapter call
  made by the aggregator is an `Except String` value supplied by an
  environment record (`Except.error` models a thrown/rejected promise).
- `Math.random()` is modelled as an explicit stream `rand : Nat → ℚ` of
  draws, consumed left to right exactly as the source consumes them.
-/

/-- Epoch-day model of JS `Date.prototype.getDay`: 0 = Sunday .. 6 = Saturday. -/
def jsGetDay (d : Int) : Int := (d + 4) % 7

/-- Model of `parseFloat(x.toFixed(2))`: round to the nearest hundredth. -/
def round2 (q : ℚ) : ℚ := (⌊q * 100 + 1 / 2⌋ : ℚ) / 100

/-- One OHLCV candle as produced by the adapters and the mock generator.
`date` is the epoch-day model of the `YYYY-MM-DD` string; `timestamp`
is the epoch-millisecond field, present only for sources that set it
(Finnhub and Yahoo set it, Alpha Vantage daily data and the mock
generator do not).  The JS field `open` is named `openPrice` because
`open` is reserved in Lean. -/
structure Candle where
  date : Int
  timestamp : Option Int
  openPrice : ℚ
  high : ℚ
  low : ℚ
  close : ℚ
  volume : Int
deriving DecidableEq, Repr

/-- A stock-search result entry `{symbol, name, exchange}`. -/
structure SearchEntry where
  symbol : String
  name : String
  exchange : String
deriving DecidableEq, Repr

/-! ## Synthetic generator: `generateMockData` (stockDataService.js lines 8-42)

The JS loops `i` from `0` to `days - 1` over dates `startDate + i` with
`startDate = today - days`, skips weekends with `continue` (before any
random draw or price update), and otherwise draws five `Math.random()`
values for change, open, high, low and volume.  One extra draw is made
up front for `basePrice`.  The stream index `k` counts draws. -/

/-- Loop body of `generateMockData`: `i` is the current day offset, `n` the
number of loop iterations left, `k` the next index into the random
stream, `price` the JS `currentPrice` accumulator. -/
def mockGo (rand : Nat → ℚ) (startDate : Int) : Nat → Nat → Nat → ℚ → List Candle
  | _, 0, _, _ => []
  | i, n + 1, k, price =>
    let date := startDate + i
    if jsGetDay date = 0 ∨ jsGetDay date = 6 then
      mockGo rand startDate (i + 1) n k price
    else
      let change := (rand k - 45 / 100) * 2
      let price' := max 10 (price + change)
      let o := price' + (rand (k + 1) - 1 / 2) * 2
      let h := max o price' + rand (k + 2) * 3
      let l := min o price' - rand (k + 3) * 3
      let c := price'
      let v := ⌊1000000 + rand (k + 4) * 5000000⌋
      { date := date, timestamp := none, openPrice := round2 o, high := round2 h,
        low := round2 l, close := round2 c, volume := v } ::
        mockGo rand startDate (i + 1) n (k + 5) price'

/-- `generateMockData(symbol, days)` from stockDataService.js.  The `symbol`
argument appears in the JS signature but is never read by the body; the
current date (`new Date()`) is the explicit `today` parameter here. -/
def generateMockData (rand : Nat → ℚ) (symbol : String) (days : Nat) (today : Int) :
    List Candle :=
  let _ := symbol
  let basePrice := 100 + rand 0 * 50
  mockGo rand (today - days) 0 days 1 basePrice


/-! ## Adapter capability checks (`isConfigured`) -/

/-- `FinnhubService.isConfigured` (finnhubService.js):
`!!this.apiKey && this.apiKey.length > 0 && this.apiKey !== 'your_finnhub_api_key_here'`. -/
def finnhubIsConfigured (key : String) : Bool :=
  key ≠ "" && key ≠ "your_finnhub_api_key_here"

/-- `YahooFinanceService.isConfigured` (yahooFinanceService.js): constantly `true`
("always true for Yahoo Finance"). -/
def yahooIsConfigured : Bool := true

/-- `PolygonService.isConfigured` (polygonService.js). -/
def polygonIsConfigured (key : String) : Bool :=
  key ≠ "" && key ≠ "your_polygon_api_key_here"

/-- `AlphaVantageService.isConfigured` (alphaVantageService.js). -/
def alphaIsConfigured (key : String) : Bool :=
  key ≠ "" && key ≠ "your_alpha_vantage_api_key_here"

/-! ## FinnhubService.getCandles (finnhubService.js lines 82-119)

The upstream reply `response.data` is modelled as parallel arrays
`t, o, h, l, c, v` plus the status string `s`; index `i` runs over
`t.length` exactly as the JS `for` loop does.  Out-of-range reads of the
parallel arrays (impossible in a well-formed Finnhub reply) default to 0.
A transport error (`Except.error`) is caught by the adapter and turned
into `[]`, as is a reply whose `s` is not `'ok'`. -/

structure FinnhubCandleResp where
  s : String
  t : List Int
  o : List ℚ
  h : List ℚ
  l : List ℚ
  c : List ℚ
  v : List Int
deriving Repr

/-- Candle built from index `i` of a Finnhub reply: `date` is
`new Date(t[i]*1000).toISOString().split('T')[0]` (epoch day, floor
division), `timestamp` is `t[i] * 1000`; prices go through `toFixed(2)`. -/
def finnhubCandleAt (r : FinnhubCandleResp) (i : Nat) : Candle :=
  { date := Int.fdiv (r.t.getD i 0) 86400
    timestamp := some (r.t.getD i 0 * 1000)
    openPrice := round2 (r.o.getD i 0)
    high := round2 (r.h.getD i 0)
    low := round2 (r.l.getD i 0)
    close := round2 (r.c.getD i 0)
    volume := r.v.getD i 0 }

/-- `FinnhubService.getCandles`: no API key gives `[]`; a caught error gives
`[]`; an `'ok'` reply is mapped index by index, in upstream order, with no
sorting and no deduplication. -/
def finnhubGetCandles (key : String) (resp : Except String FinnhubCandleResp) :
    List Candle :=
  if key = "" then []
  else
    match resp with
    | .error _ => []
    | .ok r =>
      if r.s = "ok" then
        (List.range r.t.length).map (finnhubCandleAt r)
      else []

/-! ## AlphaVantageService.getDailyTimeSeries (alphaVantageService.js lines 13-58)

`response.data['Time Series (Daily)']` is a JSON object keyed by date
string; it is modelled as an association list of `(epoch day, values)`
pairs.  JSON object keys are unique, so a well-formed reply has no
duplicate dates.  The adapter converts each entry and then sorts by date
ascending (`data.sort((a, b) => new Date(a.date) - new Date(b.date))`).
Unlike the candle adapters, this method rethrows errors. -/

structure AVDailyValues where
  o : ℚ
  h : ℚ
  l : ℚ
  c : ℚ
  v : Int
deriving Repr

structure AVDailyResp where
  errorMessage : Option String
  note : Option String
  timeSeries : Option (List (Int × AVDailyValues))
deriving Repr

def avCandleOf (e : Int × AVDailyValues) : Candle :=
  { date := e.1, timestamp := none, openPrice := e.2.o, high := e.2.h,
    low := e.2.l, close := e.2.c, volume := e.2.v }

/-- `AlphaVantageService.getDailyTimeSeries`: propagates transport errors,
throws on `'Error Message'`, `'Note'` or a missing time series, and
otherwise returns the converted entries sorted by date ascending. -/
def avGetDailyTimeSeries (resp : Except String AVDailyResp) :
    Except String (List Candle) :=
  match resp with
  | .error e => .error e
  | .ok r =>
    match r.errorMessage with
    | some m => .error m
    | none =>
      match r.note with
      | some _ => .error "API rate limit exceeded. Please wait a moment."
      | none =>
        match r.timeSeries with
        | none => .error "No time series data available"
        | some ts =>
          .ok ((ts.map avCandleOf).mergeSort (fun a b => a.date ≤ b.date))

/-! ## Adapter stock search

`FinnhubService.searchStocks` (finnhubService.js lines 14-44) filters the
reply to common stocks with a symbol, takes the first 10 (`slice(0, 10)`)
and maps to `{symbol, name, exchange}`; every failure path returns `[]`.
`YahooFinanceService.searchStocks` (yahooFinanceService.js lines 216-249)
asks the upstream for `quotesCount: 10` but performs no client-side
truncation: it only filters to equities with a symbol and maps the
fields; every failure path returns `[]`. -/

structure FinnhubSearchItem where
  itemType : String
  symbol : String
  description : Option String
  displaySymbol : Option String
deriving Repr

structure FinnhubSearchResp where
  result : Option (List FinnhubSearchItem)
deriving Repr

/-- Model of JS `s.split('.')[0]`: the part before the first dot. -/
def jsSplitDotHead (s : String) : String := String.mk (s.data.takeWhile fun c => c ≠ '.')

/-- Model of `item.displaySymbol.split('.')[0]` with the `'N/A'` default. -/
def finnhubExchangeOf (it : FinnhubSearchItem) : String :=
  match it.displaySymbol with
  | some ds => jsSplitDotHead ds
  | none => "N/A"

def finnhubSearchEntryOf (it : FinnhubSearchItem) : SearchEntry :=
  { symbol := it.symbol
    name := it.description.getD it.symbol
    exchange := finnhubExchangeOf it }

/-- `FinnhubService.searchStocks`. -/
def finnhubSearchStocks (key : String) (resp : Except String FinnhubSearchResp) :
    List SearchEntry :=
  if key = "" then []
  else
    match resp with
    | .error _ => []
    | .ok r =>
      match r.result with
      | some items =>
        ((items.filter fun it => it.itemType = "Common Stock" && it.symbol ≠ "").take 10).map
          finnhubSearchEntryOf
      | none => []

structure YahooQuoteItem where
  quoteType : String
  symbol : String
  longname : Option String
  shortname : Option String
  exchange : Option String
deriving Repr

structure YahooSearchResp where
  quotes : Option (List YahooQuoteItem)
deriving Repr

def yahooSearchEntryOf (q : YahooQuoteItem) : SearchEntry :=
  { symbol := q.symbol
    name := (q.longname.getD (q.shortname.getD q.symbol))
    exchange := q.exchange.getD "N/A" }

/-- `YahooFinanceService.searchStocks`: note the absence of any `slice` or
`take` on the reply. -/
def yahooSearchStocks (resp : Except String YahooSearchResp) : List SearchEntry :=
  match resp with
  | .error _ => []
  | .ok r =>
    match r.quotes with
    | some qs =>
      (qs.filter fun q => q.quoteType = "EQUITY" && q.symbol ≠ "").map yahooSearchEntryOf
    | none => []

/-! ## Aggregator environment

One `getStockData` / `getCurrentPrice` / `searchStocks` invocation calls
each upstream service at most once, so the environment records one
outcome per service and operation, together with the configuration
(`API_CONFIG.provider` and the three API keys), the current date, the
random stream for the mock generator, and the six cutoff dates the
`filterByTimeframe` `switch` computes from `new Date()` (the `setDate` /
`setMonth` / `setFullYear` calendar arithmetic is delegated to the
environment clock; only the comparison structure lives in the model). -/

structure Env where
  provider : String
  finnhubKey : String
  polygonKey : String
  alphaKey : String
  finnhubData : Except String (List Candle)
  yahooData : Except String (List Candle)
  polygonData : Except String (List Candle)
  alphaData : Except String (List Candle)
  finnhubQuote : Except String (Option ℚ)
  yahooQuote : Except String (Option ℚ)
  polygonQuote : Except String (Option ℚ)
  alphaQuote : Except String (Option ℚ)
  finnhubSearch : Except String (List SearchEntry)
  yahooSearch : Except String (List SearchEntry)
  cutoff1D : Int
  cutoff1W : Int
  cutoff1M : Int
  cutoff3M : Int
  cutoff6M : Int
  cutoff1Y : Int
  today : Int
  rand : Nat → ℚ

/-! ## StockDataService.filterByTimeframe (stockDataService.js lines 320-360) -/

/-- Cutoff chosen by the `switch (timeframe)`; `none` is the `default`
branch that returns the data unchanged. -/
def tfCutoff (env : Env) (timeframe : String) : Option Int :=
  if timeframe = "1D" then some env.cutoff1D
  else if timeframe = "1W" then some env.cutoff1W
  else if timeframe = "1M" then some env.cutoff1M
  else if timeframe = "3M" then some env.cutoff3M
  else if timeframe = "6M" then some env.cutoff6M
  else if timeframe = "1Y" then some env.cutoff1Y
  else none

/-- `StockDataService.filterByTimeframe`: empty input and intraday
timeframes are returned as they are; recognised daily-and-above
timeframes keep the candles dated on or after the cutoff; anything else
hits `default` and is returned unchanged. -/
def filterByTimeframe (env : Env) (data : List Candle) (timeframe : String) :
    List Candle :=
  if data.length = 0 then data
  else if timeframe ∈ ["1", "5", "15", "30", "60"] then data
  else
    match tfCutoff env timeframe with
    | some cutoffDate => data.filter fun d => cutoffDate ≤ d.date
    | none => data

/-! ## StockDataService.getStockData (stockDataService.js lines 45-171)

Each provider block of the source is one definition below; a block's
`catch` clause is the `Except.error` match arm (every block catches its
own errors, so the outer `try`/`catch` of lines 140-170 is unreachable
and the chain always produces a value).  The second component of the
result collects, in call order, the adapters whose `getDataForTimeframe`
was actually invoked. -/

inductive Adapter
  | finnhub
  | yahoo
  | polygon
  | alphavantage
deriving DecidableEq, Repr

/-- Record an adapter invocation in front of a continuation's trace. -/
def pushCall (a : Adapter) (r : Except String (List Candle) × List Adapter) :
    Except String (List Candle) × List Adapter :=
  (r.1, a :: r.2)

/-- Terminal mock-data branch (lines 128-138): generate, filter, and fall
back to the unfiltered mock data when the filter removed everything. -/
def mockTail (env : Env) (symbol : String) (timeframe : String) (days : Nat) :
    Except String (List Candle) × List Adapter :=
  let mockData := generateMockData env.rand symbol days env.today
  let filtered := filterByTimeframe env mockData timeframe
  if 0 < filtered.length then (.ok filtered, []) else (.ok mockData, [])

/-- Block 6 (lines 117-126): Polygon as generic fallback when the
configured provider is not `'polygon'`. -/
def pgFallbackBlock (env : Env) (symbol : String) (timeframe : String) (days : Nat) :
    Except String (List Candle) × List Adapter :=
  if env.provider ≠ "polygon" ∧ polygonIsConfigured env.polygonKey then
    match env.polygonData with
    | .ok d =>
      if 0 < d.length then (.ok (filterByTimeframe env d timeframe), [.polygon])
      else pushCall .polygon (mockTail env symbol timeframe days)
    | .error _ => pushCall .polygon (mockTail env symbol timeframe days)
  else mockTail env symbol timeframe days

/-- Block 5 (lines 106-115): Alpha Vantage as generic fallback when the
configured provider is not `'alphavantage'`. -/
def avFallbackBlock (env : Env) (symbol : String) (timeframe : String) (days : Nat) :
    Except String (List Candle) × List Adapter :=
  if env.provider ≠ "alphavantage" ∧ alphaIsConfigured env.alphaKey then
    match env.alphaData with
    | .ok d =>
      if 0 < d.length then (.ok (filterByTimeframe env d timeframe), [.alphavantage])
      else pushCall .alphavantage (pgFallbackBlock env symbol timeframe days)
    | .error _ => pushCall .alphavantage (pgFallbackBlock env symbol timeframe days)
  else pgFallbackBlock env symbol timeframe days

/-- Block 4 (lines 94-103): Alpha Vantage when it is the configured provider. -/
def avBlock (env : Env) (symbol : String) (timeframe : String) (days : Nat) :
    Except String (List Candle) × List Adapter :=
  if env.provider = "alphavantage" ∧ alphaIsConfigured env.alphaKey then
    match env.alphaData with
    | .ok d =>
      if 0 < d.length then (.ok (filterByTimeframe env d timeframe), [.alphavantage])
      else pushCall .alphavantage (avFallbackBlock env symbol timeframe days)
    | .error _ => pushCall .alphavantage (avFallbackBlock env symbol timeframe days)
  else avFallbackBlock env symbol timeframe days

/-- Block 3 (lines 83-92): Polygon when it is the configured provider. -/
def pgBlock (env : Env) (symbol : String) (timeframe : String) (days : Nat) :
    Except String (List Candle) × List Adapter :=
  if env.provider = "polygon" ∧ polygonIsConfigured env.polygonKey then
    match env.polygonData with
    | .ok d =>
      if 0 < d.length then (.ok (filterByTimeframe env d timeframe), [.polygon])
      else pushCall .polygon (avBlock env symbol timeframe days)
    | .error _ => pushCall .polygon (avBlock env symbol timeframe days)
  else avBlock env symbol timeframe days

/-- Block 2 (lines 65-80): Yahoo Finance.  Success needs both a non-empty
reply and a non-empty timeframe-filtered reply. -/
def yhBlock (env : Env) (symbol : String) (timeframe : String) (days : Nat) :
    Except String (List Candle) × List Adapter :=
  if yahooIsConfigured then
    match env.yahooData with
    | .ok d =>
      if 0 < d.length then
        let filtered := filterByTimeframe env d timeframe
        if 0 < filtered.length then (.ok filtered, [.yahoo])
        else pushCall .yahoo (pgBlock env symbol timeframe days)
      else pushCall .yahoo (pgBlock env symbol timeframe days)
    | .error _ => pushCall .yahoo (pgBlock env symbol timeframe days)
  else pgBlock env symbol timeframe days

/-- Block 1 (lines 50-62): Finnhub.  Success needs both a non-empty reply
and a non-empty timeframe-filtered reply. -/
def fhBlock (env : Env) (symbol : String) (timeframe : String) (days : Nat) :
    Except String (List Candle) × List Adapter :=
  if finnhubIsConfigured env.finnhubKey then
    match env.finnhubData with
    | .ok d =>
      if 0 < d.length then
        let filtered := filterByTimeframe env d timeframe
        if 0 < filtered.length then (.ok filtered, [.finnhub])
        else pushCall .finnhub (yhBlock env symbol timeframe days)
      else pushCall .finnhub (yhBlock env symbol timeframe days)
    | .error _ => pushCall .finnhub (yhBlock env symbol timeframe days)
  else yhBlock env symbol timeframe days

/-- `StockDataService.getStockData`, with the trace of invoked adapters. -/
def getStockDataX (env : Env) (symbol : String) (timeframe : String) (days : Nat) :
    Except String (List Candle) × List Adapter :=
  fhBlock env symbol timeframe days

/-! ## Specification-side fallback chain

`specFetch` follows the spec's words for the Aggregator (§4.4 and the C1
claim): a fixed priority list of adapters, each skipped without being
invoked when its capability check is false, invoked otherwise, the chain
stopping at the first adapter that succeeds by the code's criterion, and
the synthetic generator as the terminal branch.  It is to be compared
with `getStockDataX`, which is translated block by block from the
source. -/

/-- Fixed priority order of the source: Finnhub, Yahoo, then the two
keyed providers with the configured `API_CONFIG.provider` first. -/
def tryOrder (provider : String) : List Adapter :=
  [.finnhub, .yahoo] ++
    (if provider = "polygon" then [.polygon, .alphavantage] else [.alphavantage, .polygon])

/-- Capability check consulted before invoking an adapter. -/
def adapterConfigured (env : Env) : Adapter → Bool
  | .finnhub => finnhubIsConfigured env.finnhubKey
  | .yahoo => yahooIsConfigured
  | .polygon => polygonIsConfigured env.polygonKey
  | .alphavantage => alphaIsConfigured env.alphaKey

/-- Outcome of invoking one adapter, by the code's success criterion:
`some r` means the chain stops and returns `r`; `none` is a soft failure
(thrown error, empty reply, or — for Finnhub and Yahoo only — a reply
that the timeframe filter empties). -/
def adapterOutcome (env : Env) (timeframe : String) : Adapter → Option (List Candle)
  | .finnhub =>
    match env.finnhubData with
    | .ok d =>
      if 0 < d.length then
        let filtered := filterByTimeframe env d timeframe
        if 0 < filtered.length then some filtered else none
      else none
    | .error _ => none
  | .yahoo =>
    match env.yahooData with
    | .ok d =>
      if 0 < d.length then
        let filtered := filterByTimeframe env d timeframe
        if 0 < filtered.length then some filtered else none
      else none
    | .error _ => none
  | .polygon =>
    match env.polygonData with
    | .ok d => if 0 < d.length then some (filterByTimeframe env d timeframe) else none
    | .error _ => none
  | .alphavantage =>
    match env.alphaData with
    | .ok d => if 0 < d.length then some (filterByTimeframe env d timeframe) else none
    | .error _ => none

/-- The fallback chain of the spec, run over an explicit adapter list. -/
def specFetch (env : Env) (symbol : String) (timeframe : String) (days : Nat) :
    List Adapter → Except String (List Candle) × List Adapter
  | [] => mockTail env symbol timeframe days
  | a :: rest =>
    if adapterConfigured env a then
      match adapterOutcome env timeframe a with
      | some r => (.ok r, [a])
      | none => pushCall a (specFetch env symbol timeframe days rest)
    else specFetch env symbol timeframe days rest

/-! ## StockDataService.getCurrentPrice (stockDataService.js lines 218-264)

Only Yahoo's call sits in an inner `try`; a throw from the Finnhub,
Polygon or Alpha Vantage quote call propagates to the outer `catch`,
which returns `null`.  `getCurrentPriceBody` is the outer `try` block
(errors propagate); `getCurrentPriceRun` applies the outer `catch`. -/

/-- Fallback of lines 253-259: latest close of `getStockData(symbol, '1D', 1)`. -/
def cpFallback (env : Env) (symbol : String) : Except String (Option ℚ) :=
  match (getStockDataX env symbol "1D" 1).1 with
  | .ok data =>
    match data.getLast? with
    | some c => .ok (some c.close)
    | none => .ok none
  | .error e => .error e

/-- Alpha Vantage quote block (lines 248-251): `if (quote) return quote.price`. -/
def cpAlpha (env : Env) (symbol : String) : Except String (Option ℚ) :=
  if env.provider = "alphavantage" ∧ alphaIsConfigured env.alphaKey then
    match env.alphaQuote with
    | .error e => .error e
    | .ok (some p) => .ok (some p)
    | .ok none => cpFallback env symbol
  else cpFallback env symbol

/-- Polygon quote block (lines 243-246): `if (quote) return quote.price`. -/
def cpPolygon (env : Env) (symbol : String) : Except String (Option ℚ) :=
  if env.provider = "polygon" ∧ polygonIsConfigured env.polygonKey then
    match env.polygonQuote with
    | .error e => .error e
    | .ok (some p) => .ok (some p)
    | .ok none => cpAlpha env symbol
  else cpAlpha env symbol

/-- Yahoo quote block (lines 231-240), inner `try`: errors are swallowed;
`if (quote && quote.price)` needs a non-null quote with truthy price. -/
def cpYahoo (env : Env) (symbol : String) : Except String (Option ℚ) :=
  match env.yahooQuote with
  | .error _ => cpPolygon env symbol
  | .ok (some p) => if p ≠ 0 then .ok (some p) else cpPolygon env symbol
  | .ok none => cpPolygon env symbol

/-- Finnhub quote block (lines 223-228), no inner `try`: an error
propagates; `if (quote && quote.price)` needs a truthy price. -/
def getCurrentPriceBody (env : Env) (symbol : String) : Except String (Option ℚ) :=
  if finnhubIsConfigured env.finnhubKey then
    match env.finnhubQuote with
    | .error e => .error e
    | .ok (some p) => if p ≠ 0 then .ok (some p) else cpYahoo env symbol
    | .ok none => cpYahoo env symbol
  else cpYahoo env symbol

/-- Outer `catch` (lines 260-263): any propagated error becomes `null`. -/
def eRecover {α : Type} (x : Except String α) (d : α) : Except String α :=
  match x with
  | .ok v => .ok v
  | .error _ => .ok d

/-- `StockDataService.getCurrentPrice` with its outer `catch` applied. -/
def getCurrentPriceRun (env : Env) (symbol : String) : Except String (Option ℚ) :=
  eRecover (getCurrentPriceBody env symbol) none

/-! ## StockDataService.searchStocks (stockDataService.js lines 267-318) -/

/-- The built-in demo list of lines 291-299. -/
def commonStocks : List SearchEntry :=
  [ { symbol := "AAPL", name := "Apple Inc.", exchange := "NASDAQ" },
    { symbol := "MSFT", name := "Microsoft Corporation", exchange := "NASDAQ" },
    { symbol := "GOOGL", name := "Alphabet Inc.", exchange := "NASDAQ" },
    { symbol := "AMZN", name := "Amazon.com Inc.", exchange := "NASDAQ" },
    { symbol := "TSLA", name := "Tesla Inc.", exchange := "NASDAQ" },
    { symbol := "META", name := "Meta Platforms Inc.", exchange := "NASDAQ" },
    { symbol := "NVDA", name := "NVIDIA Corporation", exchange := "NASDAQ" } ]

/-- Model of JS `String.prototype.toUpperCase` (character by character). -/
def jsToUpper (s : String) : String := String.mk (s.data.map Char.toUpper)

/-- Model of JS `String.prototype.trim`: strip whitespace at both ends. -/
def jsTrim (s : String) : String :=
  String.mk (((s.data.dropWhile Char.isWhitespace).reverse.dropWhile Char.isWhitespace).reverse)

/-- Character-list version of JS `String.prototype.startsWith`. -/
def clStartsWith : List Char → List Char → Bool
  | _, [] => true
  | [], _ :: _ => false
  | a :: as, b :: bs => a = b && clStartsWith as bs

/-- Character-list version of JS `String.prototype.includes`. -/
def clIncludes : List Char → List Char → Bool
  | [], sub => sub.isEmpty
  | a :: as, sub => clStartsWith (a :: as) sub || clIncludes as sub

/-- JS `s.includes(sub)` on strings. -/
def jsIncludes (s sub : String) : Bool := clIncludes s.toList sub.toList

/-- Filter predicate of lines 304-307:
`stock.symbol.includes(upperQuery) || stock.name.toUpperCase().includes(upperQuery)`. -/
def commonStockMatches (upperQuery : String) (stock : SearchEntry) : Bool :=
  jsIncludes stock.symbol upperQuery || jsIncludes (jsToUpper stock.name) upperQuery

/-- Demo branch of lines 290-311, guarded by
`!finnhubService.isConfigured() && !yahooFinanceService.isConfigured()`;
because `yahooIsConfigured` is constantly `true` this guard can never
hold, and the branch falls through to `return []` (line 313). -/
def ssCommon (env : Env) (query : String) : Except String (List SearchEntry) :=
  if ¬ finnhubIsConfigured env.finnhubKey ∧ ¬ yahooIsConfigured then
    if query ≠ "" ∧ 0 < (jsTrim query).length then
      .ok (commonStocks.filter (commonStockMatches (jsToUpper query)))
    else .ok commonStocks
  else .ok []

/-- Yahoo search block (lines 278-287), inner `try`: errors swallowed. -/
def ssYahoo (env : Env) (query : String) : Except String (List SearchEntry) :=
  if yahooIsConfigured then
    match env.yahooSearch with
    | .error _ => ssCommon env query
    | .ok results =>
      if 0 < results.length then .ok results else ssCommon env query
  else ssCommon env query

/-- Finnhub search block (lines 270-275), no inner `try`: errors propagate
to the outer `catch`. -/
def searchStocksBody (env : Env) (query : String) : Except String (List SearchEntry) :=
  if finnhubIsConfigured env.finnhubKey then
    match env.finnhubSearch with
    | .error e => .error e
    | .ok results =>
      if 0 < results.length then .ok results else ssYahoo env query
  else ssYahoo env query

/-- `StockDataService.searchStocks` with its outer `catch` (lines 314-317)
applied: any propagated error becomes `[]`. -/
def searchStocksRun (env : Env) (query : String) : Except String (List SearchEntry) :=
  eRecover (searchStocksBody env query) []

/-! ## server.js subscription registry and broadcast loops

State of the WebSocket layer (server.js lines 103-104 and 243-316):
`rooms` models the Socket.IO room membership per upper-cased symbol,
`intervals` the symbols whose `setInterval` price loop is running
(`priceUpdateIntervals`), and `subscribedSymbols` the ever-growing
`Set` of the same name.  Socket.IO itself removes a disconnecting socket
from all of its rooms; the server's `disconnect` handler (lines 278-281)
only logs and stops no interval. -/

structure ServerState where
  rooms : List (String × List String)
  intervals : List String
  subscribedSymbols : List String
deriving DecidableEq, Repr

def ServerState.initial : ServerState :=
  { rooms := [], intervals := [], subscribedSymbols := [] }

/-- Members of a symbol's Socket.IO room. -/
def roomGet (rooms : List (String × List String)) (s : String) : List String :=
  (rooms.lookup s).getD []

/-- `socket.join(room)`: idempotent insertion. -/
def roomJoin (rooms : List (String × List String)) (s v : String) :
    List (String × List String) :=
  match rooms with
  | [] => [(s, [v])]
  | (s', vs) :: rest =>
    if s' = s then (s', if v ∈ vs then vs else vs ++ [v]) :: rest
    else (s', vs) :: roomJoin rest s v

/-- `socket.leave(room)`. -/
def roomLeave (rooms : List (String × List String)) (s v : String) :
    List (String × List String) :=
  rooms.map fun e => if e.1 = s then (e.1, e.2.erase v) else e

/-- `startPriceUpdates(symbol)` (lines 284-307): a no-op when an interval
for the symbol is already stored, otherwise records the new interval. -/
def startPriceUpdates (st : ServerState) (s : String) : ServerState :=
  if s ∈ st.intervals then st else { st with intervals := s :: st.intervals }

/-- `stopPriceUpdates(symbol)` (lines 310-316). -/
def stopPriceUpdates (st : ServerState) (s : String) : ServerState :=
  { st with intervals := st.intervals.erase s }

/-- `socket.on('subscribe')` handler (lines 248-261): ignore falsy symbols,
upper-case, add to `subscribedSymbols`, start the loop if absent, join
the room. -/
def serverSubscribe (st : ServerState) (viewer symbol : String) : ServerState :=
  if symbol = "" then st
  else
    let s := jsToUpper symbol
    let st1 := { st with subscribedSymbols :=
      if s ∈ st.subscribedSymbols then st.subscribedSymbols
      else s :: st.subscribedSymbols }
    let st2 := if (st1.intervals.contains s) then st1 else startPriceUpdates st1 s
    { st2 with rooms := roomJoin st2.rooms s viewer }

/-- `socket.on('unsubscribe')` handler (lines 264-276): leave the room,
then stop the loop when the room became empty. -/
def serverUnsubscribe (st : ServerState) (viewer symbol : String) : ServerState :=
  if symbol = "" then st
  else
    let s := jsToUpper symbol
    let st1 := { st with rooms := roomLeave st.rooms s viewer }
    if roomGet st1.rooms s = [] then stopPriceUpdates st1 s else st1

/-- Viewer disconnect: Socket.IO removes the socket from every room; the
server's `disconnect` handler (lines 278-281) performs no cleanup of
`priceUpdateIntervals`. -/
def serverDisconnect (st : ServerState) (viewer : String) : ServerState :=
  { st with rooms := st.rooms.map fun e => (e.1, e.2.erase viewer) }

inductive ServerEvent
  | sub (viewer symbol : String)
  | unsub (viewer symbol : String)
  | disc (viewer : String)
deriving DecidableEq, Repr

def serverStep (st : ServerState) : ServerEvent → ServerState
  | .sub v s => serverSubscribe st v s
  | .unsub v s => serverUnsubscribe st v s
  | .disc v => serverDisconnect st v

/-- Run an event sequence from the empty initial server state. -/
def serverRun (evts : List ServerEvent) : ServerState :=
  evts.foldl serverStep ServerState.initial


/-! ## Claim-support definitions -/

/-- Payload of a `getStockData` result (`[]` for the unreachable error case). -/
def okList (x : Except String (List Candle)) : List Candle :=
  match x with
  | .ok l => l
  | .error _ => []

/-- The `getDataForTimeframe` outcome of each adapter. -/
def adapterData (env : Env) : Adapter → Except String (List Candle)
  | .finnhub => env.finnhubData
  | .yahoo => env.yahooData
  | .polygon => env.polygonData
  | .alphavantage => env.alphaData

/-- An adapter call that throws or comes back empty. -/
def adapterDataFails (x : Except String (List Candle)) : Prop :=
  match x with
  | .error _ => True
  | .ok l => l = []

/-- Every adapter either reports itself unconfigured or fails when called. -/
def allAdaptersUnusable (env : Env) : Prop :=
  ∀ a : Adapter, adapterConfigured env a = false ∨ adapterDataFails (adapterData env a)


/-- A minimal candle fixture for concrete evaluations. -/
def candleOn (d : Int) : Candle :=
  { date := d, timestamp := none, openPrice := 1, high := 1, low := 1, close := 1, volume := 0 }

/-- Baseline environment: default provider, no API keys, every upstream
call comes back empty, all cutoffs at day 100, today is day 7 (a
Thursday), random stream constantly 0. -/
def envBase : Env :=
  { provider := "finnhub", finnhubKey := "", polygonKey := "", alphaKey := ""
    finnhubData := .ok [], yahooData := .ok [], polygonData := .ok [], alphaData := .ok []
    finnhubQuote := .ok none, yahooQuote := .ok none, polygonQuote := .ok none
    alphaQuote := .ok none, finnhubSearch := .ok [], yahooSearch := .ok []
    cutoff1D := 100, cutoff1W := 100, cutoff1M := 100, cutoff3M := 100
    cutoff6M := 100, cutoff1Y := 100, today := 7, rand := fun _ => 0 }

/-- Environment where Finnhub is configured and answers with one stale
candle (day 50, before every cutoff) and Yahoo answers with one fresh
candle (day 200). -/
def envStale : Env :=
  { envBase with
    finnhubKey := "K"
    finnhubData := .ok [candleOn 50]
    yahooData := .ok [candleOn 200] }

/-- Baseline environment shifted so that the single mock-window day of a
one-day request (yesterday, day 3) is a Sunday. -/
def envSunday : Env := { envBase with today := 4 }

/-- A Finnhub candle reply whose timestamps arrive out of order. -/
def fhRespBad : FinnhubCandleResp :=
  { s := "ok", t := [2, 1], o := [1, 1], h := [1, 1], l := [1, 1], c := [1, 1], v := [0, 0] }

/-- An equity quote item for the Yahoo search counterexample. -/
def yqEquity : YahooQuoteItem :=
  { quoteType := "EQUITY", symbol := "A", longname := none, shortname := none,
    exchange := none }

/-- A two-entry Alpha Vantage daily object arriving in reverse date order. -/
def tsTwoDays : List (Int × AVDailyValues) :=
  [(1, { o := 1, h := 1, l := 1, c := 1, v := 0 }),
   (0, { o := 1, h := 1, l := 1, c := 1, v := 0 })]


/-! ## Helper lemmas -/

theorem round2_mono {q r : ℚ} (h : q ≤ r) : round2 q ≤ round2 r := by
  unfold round2
  have h1 : (⌊q * 100 + 1 / 2⌋ : ℤ) ≤ ⌊r * 100 + 1 / 2⌋ :=
    Int.floor_le_floor (by linarith)
  have h2 : ((⌊q * 100 + 1 / 2⌋ : ℤ) : ℚ) ≤ ((⌊r * 100 + 1 / 2⌋ : ℤ) : ℚ) := by
    exact_mod_cast h1
  linarith

/-- Every candle the mock loop emits is internally consistent, provided the
random draws are non-negative (as `Math.random()` draws are). -/
theorem mockGo_consistent (rand : Nat → ℚ) (startDate : Int)
    (hr : ∀ m, 0 ≤ rand m) :
    ∀ (n i k : Nat) (price : ℚ) (c : Candle), c ∈ mockGo rand startDate i n k price →
      (c.low ≤ min c.openPrice c.close ∧ max c.openPrice c.close ≤ c.high) := by
  intro n
  induction n with
  | zero => intro i k price c hc; simp [mockGo] at hc
  | succ n ih =>
    intro i k price c hc
    rw [mockGo] at hc
    by_cases hw : jsGetDay (startDate + i) = 0 ∨ jsGetDay (startDate + i) = 6
    · rw [if_pos hw] at hc
      exact ih (i + 1) k price c hc
    · rw [if_neg hw] at hc
      simp only [List.mem_cons] at hc
      rcases hc with hc | hc
      · subst hc
        constructor
        · apply le_min
          · exact round2_mono (by
              have := hr (k + 3)
              have hm : min (max 10 (price + (rand k - 45 / 100) * 2) +
                  (rand (k + 1) - 1 / 2) * 2) (max 10 (price + (rand k - 45 / 100) * 2)) ≤
                  max 10 (price + (rand k - 45 / 100) * 2) +
                  (rand (k + 1) - 1 / 2) * 2 := min_le_left _ _
              linarith)
          · exact round2_mono (by
              have := hr (k + 3)
              have hm : min (max 10 (price + (rand k - 45 / 100) * 2) +
                  (rand (k + 1) - 1 / 2) * 2) (max 10 (price + (rand k - 45 / 100) * 2)) ≤
                  max 10 (price + (rand k - 45 / 100) * 2) := min_le_right _ _
              linarith)
        · apply max_le
          · exact round2_mono (by
              have := hr (k + 2)
              have hm : max 10 (price + (rand k - 45 / 100) * 2) +
                  (rand (k + 1) - 1 / 2) * 2 ≤
                  max (max 10 (price + (rand k - 45 / 100) * 2) +
                    (rand (k + 1) - 1 / 2) * 2) (max 10 (price + (rand k - 45 / 100) * 2)) :=
                le_max_left _ _
              linarith)
          · exact round2_mono (by
              have := hr (k + 2)
              have hm : max 10 (price + (rand k - 45 / 100) * 2) ≤
                  max (max 10 (price + (rand k - 45 / 100) * 2) +
                    (rand (k + 1) - 1 / 2) * 2) (max 10 (price + (rand k - 45 / 100) * 2)) :=
                le_max_right _ _
              linarith)
      · exact ih (i + 1) (k + 5) _ c hc

/-- The mock loop emits a candle as soon as some remaining day is a weekday. -/
theorem mockGo_ne_nil (rand : Nat → ℚ) (startDate : Int) :
    ∀ (n i k : Nat) (price : ℚ),
      (∃ j : Nat, j < n ∧
        ¬(jsGetDay (startDate + i + j) = 0 ∨ jsGetDay (startDate + i + j) = 6)) →
      mockGo rand startDate i n k price ≠ [] := by
  intro n
  induction n with
  | zero => intro i k price ⟨j, hj, _⟩; omega
  | succ n ih =>
    intro i k price ⟨j, hj, hwk⟩
    rw [mockGo]
    by_cases hw : jsGetDay (startDate + i) = 0 ∨ jsGetDay (startDate + i) = 6
    · rw [if_pos hw]
      apply ih (i + 1) k price
      have hj0 : j ≠ 0 := by
        intro h0
        subst h0
        simp only [Nat.cast_zero, add_zero] at hwk
        exact hwk hw
      refine ⟨j - 1, by omega, ?_⟩
      have hcast : startDate + ↑(i + 1) + ↑(j - 1) = startDate + ↑i + ↑j := by
        push_cast [Nat.cast_sub (by omega : 1 ≤ j)]
        ring
      rw [hcast]
      exact hwk
    · rw [if_neg hw]
      simp

/-- Any three consecutive days contain a weekday. -/
theorem weekday_exists (s : Int) :
    ∃ j : Nat, j < 3 ∧ ¬(jsGetDay (s + j) = 0 ∨ jsGetDay (s + j) = 6) := by
  unfold jsGetDay
  by_cases h0 : (s + 4) % 7 = 0
  · exact ⟨1, by norm_num, by push_cast; omega⟩
  · by_cases h6 : (s + 4) % 7 = 6
    · exact ⟨2, by norm_num, by push_cast; omega⟩
    · exact ⟨0, by norm_num, by push_cast; omega⟩

/-- With at least three days in the window, the mock series is non-empty. -/
theorem generateMockData_ne_nil (rand : Nat → ℚ) (symbol : String) (days : Nat)
    (today : Int) (hd : 3 ≤ days) :
    generateMockData rand symbol days today ≠ [] := by
  unfold generateMockData
  apply mockGo_ne_nil
  obtain ⟨j, hj3, hwk⟩ := weekday_exists (today - days)
  refine ⟨j, by omega, ?_⟩
  simpa using hwk

/-- The timeframe filter only ever drops candles. -/
theorem filterByTimeframe_sublist (env : Env) (data : List Candle) (tf : String) :
    (filterByTimeframe env data tf).Sublist data := by
  unfold filterByTimeframe
  split_ifs
  · exact List.Sublist.refl data
  · exact List.Sublist.refl data
  · match tfCutoff env tf with
    | some cd => exact List.filter_sublist data
    | none => exact List.Sublist.refl data

/-- The source's Finnhub block agrees with one step of the spec chain. -/
theorem fhBlock_eq_spec (env : Env) (symbol timeframe : String) (days : Nat) :
    fhBlock env symbol timeframe days =
      (if adapterConfigured env .finnhub then
        match adapterOutcome env timeframe .finnhub with
        | some r => (.ok r, [Adapter.finnhub])
        | none => pushCall .finnhub (yhBlock env symbol timeframe days)
      else yhBlock env symbol timeframe days) := by
  unfold fhBlock adapterConfigured adapterOutcome
  cases env.finnhubData with
  | error e => split_ifs <;> rfl
  | ok d =>
    by_cases hd : 0 < d.length
    · by_cases hf : 0 < (filterByTimeframe env d timeframe).length
      · simp [hd, hf]
      · simp [hd, hf]
    · simp [hd]

/-- The source's Yahoo block agrees with one step of the spec chain. -/
theorem yhBlock_eq_spec (env : Env) (symbol timeframe : String) (days : Nat) :
    yhBlock env symbol timeframe days =
      (if adapterConfigured env .yahoo then
        match adapterOutcome env timeframe .yahoo with
        | some r => (.ok r, [Adapter.yahoo])
        | none => pushCall .yahoo (pgBlock env symbol timeframe days)
      else pgBlock env symbol timeframe days) := by
  unfold yhBlock adapterConfigured adapterOutcome
  cases env.yahooData with
  | error e => split_ifs <;> rfl
  | ok d =>
    by_cases hd : 0 < d.length
    · by_cases hf : 0 < (filterByTimeframe env d timeframe).length
      · simp [hd, hf]
      · simp [hd, hf]
    · simp [hd]

/-- With `provider === 'polygon'`, the Polygon block is one spec step whose
continuation is the Alpha Vantage block. -/
theorem pgBlock_eq_spec (env : Env) (symbol timeframe : String) (days : Nat)
    (hp : env.provider = "polygon") :
    pgBlock env symbol timeframe days =
      (if adapterConfigured env .polygon then
        match adapterOutcome env timeframe .polygon with
        | some r => (.ok r, [Adapter.polygon])
        | none => pushCall .polygon (avBlock env symbol timeframe days)
      else avBlock env symbol timeframe days) := by
  unfold pgBlock adapterConfigured adapterOutcome
  simp only [hp, true_and]
  cases env.polygonData with
  | error e => split_ifs <;> rfl
  | ok d =>
    by_cases hd : 0 < d.length
    · simp [hd]
    · simp [hd]

/-- With any other provider, the Polygon block is skipped. -/
theorem pgBlock_skip (env : Env) (symbol timeframe : String) (days : Nat)
    (hp : env.provider ≠ "polygon") :
    pgBlock env symbol timeframe days = avBlock env symbol timeframe days := by
  unfold pgBlock
  rw [if_neg]
  rintro ⟨h1, -⟩
  exact hp h1

/-- With `provider === 'alphavantage'`, the primary Alpha Vantage block is
one spec step whose continuation is the Alpha Vantage fallback block. -/
theorem avBlock_eq_spec (env : Env) (symbol timeframe : String) (days : Nat)
    (ha : env.provider = "alphavantage") :
    avBlock env symbol timeframe days =
      (if adapterConfigured env .alphavantage then
        match adapterOutcome env timeframe .alphavantage with
        | some r => (.ok r, [Adapter.alphavantage])
        | none => pushCall .alphavantage (avFallbackBlock env symbol timeframe days)
      else avFallbackBlock env symbol timeframe days) := by
  unfold avBlock adapterConfigured adapterOutcome
  simp only [ha, true_and]
  cases env.alphaData with
  | error e => split_ifs <;> rfl
  | ok d =>
    by_cases hd : 0 < d.length
    · simp [hd]
    · simp [hd]

/-- With any other provider, the primary Alpha Vantage block is skipped. -/
theorem avBlock_skip (env : Env) (symbol timeframe : String) (days : Nat)
    (ha : env.provider ≠ "alphavantage") :
    avBlock env symbol timeframe days = avFallbackBlock env symbol timeframe days := by
  unfold avBlock
  rw [if_neg]
  rintro ⟨h1, -⟩
  exact ha h1

/-- Alpha Vantage fallback block as one spec step (provider not
`'alphavantage'`). -/
theorem avFallbackBlock_eq_spec (env : Env) (symbol timeframe : String) (days : Nat)
    (ha : env.provider ≠ "alphavantage") :
    avFallbackBlock env symbol timeframe days =
      (if adapterConfigured env .alphavantage then
        match adapterOutcome env timeframe .alphavantage with
        | some r => (.ok r, [Adapter.alphavantage])
        | none => pushCall .alphavantage (pgFallbackBlock env symbol timeframe days)
      else pgFallbackBlock env symbol timeframe days) := by
  unfold avFallbackBlock adapterConfigured adapterOutcome
  simp only [ha, ne_eq, not_false_iff, true_and]
  cases env.alphaData with
  | error e => split_ifs <;> rfl
  | ok d =>
    by_cases hd : 0 < d.length
    · simp [hd]
    · simp [hd]

/-- Alpha Vantage fallback block is skipped when Alpha Vantage is the
configured provider (the primary block already handled it). -/
theorem avFallbackBlock_skip (env : Env) (symbol timeframe : String) (days : Nat)
    (ha : env.provider = "alphavantage") :
    avFallbackBlock env symbol timeframe days = pgFallbackBlock env symbol timeframe days := by
  unfold avFallbackBlock
  rw [if_neg]
  rintro ⟨h1, -⟩
  exact h1 ha

/-- Polygon fallback block as one spec step (provider not `'polygon'`). -/
theorem pgFallbackBlock_eq_spec (env : Env) (symbol timeframe : String) (days : Nat)
    (hp : env.provider ≠ "polygon") :
    pgFallbackBlock env symbol timeframe days =
      (if adapterConfigured env .polygon then
        match adapterOutcome env timeframe .polygon with
        | some r => (.ok r, [Adapter.polygon])
        | none => pushCall .polygon (mockTail env symbol timeframe days)
      else mockTail env symbol timeframe days) := by
  unfold pgFallbackBlock adapterConfigured adapterOutcome
  simp only [hp, ne_eq, not_false_iff, true_and]
  cases env.polygonData with
  | error e => split_ifs <;> rfl
  | ok d =>
    by_cases hd : 0 < d.length
    · simp [hd]
    · simp [hd]

/-- Polygon fallback block is skipped when Polygon is the configured
provider. -/
theorem pgFallbackBlock_skip (env : Env) (symbol timeframe : String) (days : Nat)
    (hp : env.provider = "polygon") :
    pgFallbackBlock env symbol timeframe days = mockTail env symbol timeframe days := by
  unfold pgFallbackBlock
  rw [if_neg]
  rintro ⟨h1, -⟩
  exact h1 hp

/-- The translated `getStockData` equals the spec's fallback chain run over
the fixed priority order. -/
theorem getStockData_eq_specFetch (env : Env) (symbol timeframe : String) (days : Nat) :
    getStockDataX env symbol timeframe days =
      specFetch env symbol timeframe days (tryOrder env.provider) := by
  unfold tryOrder
  by_cases hp : env.provider = "polygon"
  · have ha : env.provider ≠ "alphavantage" := by rw [hp]; decide
    rw [if_pos hp]
    show getStockDataX env symbol timeframe days =
      specFetch env symbol timeframe days [.finnhub, .yahoo, .polygon, .alphavantage]
    rw [getStockDataX, fhBlock_eq_spec, yhBlock_eq_spec,
      pgBlock_eq_spec env symbol timeframe days hp,
      avBlock_skip env symbol timeframe days ha,
      avFallbackBlock_eq_spec env symbol timeframe days ha,
      pgFallbackBlock_skip env symbol timeframe days hp]
    rfl
  · rw [if_neg hp]
    show getStockDataX env symbol timeframe days =
      specFetch env symbol timeframe days [.finnhub, .yahoo, .alphavantage, .polygon]
    by_cases ha : env.provider = "alphavantage"
    · rw [getStockDataX, fhBlock_eq_spec, yhBlock_eq_spec,
        pgBlock_skip env symbol timeframe days hp,
        avBlock_eq_spec env symbol timeframe days ha,
        avFallbackBlock_skip env symbol timeframe days ha,
        pgFallbackBlock_eq_spec env symbol timeframe days hp]
      rfl
    · rw [getStockDataX, fhBlock_eq_spec, yhBlock_eq_spec,
        pgBlock_skip env symbol timeframe days hp,
        avBlock_skip env symbol timeframe days ha,
        avFallbackBlock_eq_spec env symbol timeframe days ha,
        pgFallbackBlock_eq_spec env symbol timeframe days hp]
      rfl

theorem adapterOutcome_of_fails (env : Env) (timeframe : String) (a : Adapter)
    (h : adapterDataFails (adapterData env a)) :
    adapterOutcome env timeframe a = none := by
  cases a
  case finnhub =>
    unfold adapterDataFails adapterData at h
    unfold adapterOutcome
    revert h
    cases env.finnhubData with
    | error e => intro h; rfl
    | ok l => intro h; simp only [h]; rfl
  case yahoo =>
    unfold adapterDataFails adapterData at h
    unfold adapterOutcome
    revert h
    cases env.yahooData with
    | error e => intro h; rfl
    | ok l => intro h; simp only [h]; rfl
  case polygon =>
    unfold adapterDataFails adapterData at h
    unfold adapterOutcome
    revert h
    cases env.polygonData with
    | error e => intro h; rfl
    | ok l => intro h; simp only [h]; rfl
  case alphavantage =>
    unfold adapterDataFails adapterData at h
    unfold adapterOutcome
    revert h
    cases env.alphaData with
    | error e => intro h; rfl
    | ok l => intro h; simp only [h]; rfl

theorem specFetch_of_unusable (env : Env) (symbol timeframe : String) (days : Nat) :
    ∀ L : List Adapter,
      (∀ a ∈ L, adapterConfigured env a = false ∨ adapterDataFails (adapterData env a)) →
      (specFetch env symbol timeframe days L).1 = (mockTail env symbol timeframe days).1 := by
  intro L
  induction L with
  | nil => intro _; rfl
  | cons a rest ih =>
    intro h
    have ha := h a (by simp)
    have hrest : ∀ b ∈ rest, adapterConfigured env b = false ∨
        adapterDataFails (adapterData env b) := fun b hb => h b (by simp [hb])
    unfold specFetch
    rcases ha with hc | hf
    · rw [if_neg (by simp [hc])]
      exact ih hrest
    · by_cases hcfg : adapterConfigured env a = true
      · rw [if_pos hcfg]
        rw [adapterOutcome_of_fails env timeframe a hf]
        simp only [pushCall]
        exact ih hrest
      · rw [if_neg hcfg]
        exact ih hrest

/-- Candles coming out of the mock tail come from the generated series. -/
theorem mockTail_mem (env : Env) (symbol timeframe : String) (days : Nat)
    (c : Candle) (hc : c ∈ okList (mockTail env symbol timeframe days).1) :
    c ∈ generateMockData env.rand symbol days env.today := by
  unfold mockTail at hc
  by_cases hf : 0 < (filterByTimeframe env
      (generateMockData env.rand symbol days env.today) timeframe).length
  · rw [if_pos hf] at hc
    unfold okList at hc
    exact (filterByTimeframe_sublist env _ timeframe).mem hc
  · rw [if_neg hf] at hc
    unfold okList at hc
    exact hc

/-- A non-empty mock series gives a non-empty mock tail. -/
theorem mockTail_ne_nil (env : Env) (symbol timeframe : String) (days : Nat)
    (h : generateMockData env.rand symbol days env.today ≠ []) :
    okList (mockTail env symbol timeframe days).1 ≠ [] := by
  unfold mockTail
  by_cases hf : 0 < (filterByTimeframe env
      (generateMockData env.rand symbol days env.today) timeframe).length
  · rw [if_pos hf]
    intro hnil
    have h2 : filterByTimeframe env
        (generateMockData env.rand symbol days env.today) timeframe = [] := hnil
    rw [h2] at hf
    simp at hf
  · rw [if_neg hf]
    exact h

/-- Every position of the spec chain yields a value, never an error. -/
theorem specFetch_isOk (env : Env) (symbol timeframe : String) (days : Nat) :
    ∀ L : List Adapter, (specFetch env symbol timeframe days L).1.isOk = true := by
  intro L
  induction L with
  | nil =>
    show (mockTail env symbol timeframe days).1.isOk = true
    unfold mockTail
    by_cases hf : 0 < (filterByTimeframe env
        (generateMockData env.rand symbol days env.today) timeframe).length
    · rw [if_pos hf]
      rfl
    · rw [if_neg hf]
      rfl
  | cons a rest ih =>
    unfold specFetch
    split_ifs with hc
    · cases adapterOutcome env timeframe a with
      | some r => rfl
      | none => simpa [pushCall] using ih
    · exact ih

/-- Every call of the chain invokes at least one adapter: Finnhub when it is
configured, otherwise Yahoo, whose `isConfigured` is constantly true. -/
theorem getStockDataX_calls_ne_nil (env : Env) (symbol timeframe : String) (days : Nat) :
    (getStockDataX env symbol timeframe days).2 ≠ [] := by
  rw [getStockData_eq_specFetch]
  unfold tryOrder
  have hspec : ∀ hd : List Adapter → List Adapter,
      (specFetch env symbol timeframe days
        (Adapter.finnhub :: Adapter.yahoo :: hd [])).2 ≠ [] := by
    intro hd
    unfold specFetch
    split_ifs with h1
    · cases adapterOutcome env timeframe .finnhub with
      | some r => simp
      | none => simp [pushCall]
    · unfold specFetch
      rw [if_pos (by unfold adapterConfigured yahooIsConfigured; rfl)]
      cases adapterOutcome env timeframe .yahoo with
      | some r => simp
      | none => simp [pushCall]
  split_ifs with hp
  · exact hspec fun _ => [.polygon, .alphavantage]
  · exact hspec fun _ => [.alphavantage, .polygon]

/-- Indexed read-back of a whole list, as the Finnhub candle loop does. -/
theorem range_map_getD {α β : Type} (g : α → β) (d : α) :
    ∀ l : List α, (List.range l.length).map (fun i => g (l.getD i d)) = l.map g := by
  intro l
  induction l with
  | nil => rfl
  | cons a t ih =>
    have h1 : List.range (a :: t).length = 0 :: (List.range t.length).map Nat.succ := by
      rw [List.length_cons, List.range_succ_eq_map]
    rw [h1, List.map_cons, List.map_map]
    show g a :: (List.range t.length).map (fun i => g (t.getD i d)) = g a :: t.map g
    rw [ih]

/-- The outer catches of `getCurrentPrice` and `searchStocks` always
produce a value. -/
theorem eRecover_isOk {α : Type} (x : Except String α) (d : α) :
    (eRecover x d).isOk = true := by
  cases x <;> rfl

/-- The Alpha Vantage daily series is strictly ascending by date whenever
the reply's object keys are (as JSON object keys always are) distinct. -/
theorem avGetDailyTimeSeries_sorted (ts : List (Int × AVDailyValues))
    (hnd : (ts.map Prod.fst).Nodup) (l : List Candle)
    (hl : avGetDailyTimeSeries
      (.ok { errorMessage := none, note := none, timeSeries := some ts }) = .ok l) :
    l.Pairwise fun a b => a.date < b.date := by
  have hl' : l = (ts.map avCandleOf).mergeSort (fun a b => a.date ≤ b.date) := by
    unfold avGetDailyTimeSeries at hl
    simpa using hl.symm
  subst hl'
  have hs := @List.sorted_mergeSort Candle
    (fun a b : Candle => decide (a.date ≤ b.date))
    (fun a b c h1 h2 => by
      simp only [decide_eq_true_eq] at h1 h2 ⊢
      exact le_trans h1 h2)
    (fun a b => by
      simp only [Bool.or_eq_true, decide_eq_true_eq]
      exact le_total a.date b.date)
    (ts.map avCandleOf)
  have hperm := List.mergeSort_perm (ts.map avCandleOf)
    (fun a b : Candle => decide (a.date ≤ b.date))
  have hmapdates : (ts.map avCandleOf).map (fun c => c.date) = ts.map Prod.fst := by
    rw [List.map_map]
    rfl
  have hnd2 : (((ts.map avCandleOf).mergeSort
      (fun a b : Candle => decide (a.date ≤ b.date))).map (fun c => c.date)).Nodup := by
    refine ((hperm.map (fun c => c.date)).nodup_iff).mpr ?_
    rw [hmapdates]
    exact hnd
  have hne : ((ts.map avCandleOf).mergeSort
      (fun a b : Candle => decide (a.date ≤ b.date))).Pairwise
      (fun a b => a.date ≠ b.date) := List.pairwise_map.mp hnd2
  refine (hs.and hne).imp ?_
  intro a b hab
  rcases hab with ⟨h1, h2⟩
  simp only [decide_eq_true_eq] at h1
  exact lt_of_le_of_ne h1 h2

/-! ## Claim theorems -/

/-- C1 (amended): `getStockData` realises the spec's fallback chain over
the fixed priority order `[Finnhub, Yahoo] ++ (provider = 'polygon' ?
[Polygon, AlphaVantage] : [AlphaVantage, Polygon])`: adapters whose
capability check is false are skipped without being invoked, the chain
stops at the first adapter that succeeds by the code's criterion and
returns its timeframe-filtered data, and later adapters are not called.
The code's success criterion for Finnhub and Yahoo demands a non-empty
reply whose timeframe-filtered form is also non-empty, so an adapter that
succeeds with a non-empty result can still be passed over. -/
theorem claim1_fallback_chain (env : Env) (symbol timeframe : String) (days : Nat) :
    getStockDataX env symbol timeframe days =
      specFetch env symbol timeframe days (tryOrder env.provider) :=
  getStockData_eq_specFetch env symbol timeframe days

/-- C1 counterexample to the claim as stated: Finnhub is configured and
succeeds with a non-empty result (one candle at day 50), yet because the
`'1W'` filter empties it the aggregator still calls Yahoo afterwards. -/
theorem claim1_counterexample :
    finnhubIsConfigured envStale.finnhubKey = true ∧
    okList envStale.finnhubData = [candleOn 50] ∧
    (getStockDataX envStale "AAPL" "1W" 365).2 = [Adapter.finnhub, Adapter.yahoo] := by
  refine ⟨rfl, rfl, ?_⟩
  rfl

/-- C2: there is no cache: every `getStockData` call, whatever came
before it, invokes at least one adapter (Yahoo's `isConfigured` is
constantly true), so a second call within any window never issues zero
adapter calls. -/
theorem claim2_no_cache (env : Env) (symbol timeframe : String) (days : Nat) :
    (getStockDataX env symbol timeframe days).2 ≠ [] :=
  getStockDataX_calls_ne_nil env symbol timeframe days

/-- C3 (amended): with every adapter unconfigured or failing and the
random draws non-negative, every candle of the returned series satisfies
`low ≤ min(open, close)` and `max(open, close) ≤ high`, and the series is
non-empty whenever the requested window spans at least three days (three
consecutive dates always contain a weekday).  For `days < 3` the window
can consist of weekend days only and come back empty. -/
theorem claim3_synthetic_fallback (env : Env) (symbol timeframe : String) (days : Nat)
    (hfail : allAdaptersUnusable env) (hr : ∀ m, 0 ≤ env.rand m) :
    (∀ c ∈ okList (getStockDataX env symbol timeframe days).1,
      c.low ≤ min c.openPrice c.close ∧ max c.openPrice c.close ≤ c.high)
    ∧ (3 ≤ days → okList (getStockDataX env symbol timeframe days).1 ≠ []) := by
  have heq : (getStockDataX env symbol timeframe days).1 =
      (mockTail env symbol timeframe days).1 := by
    rw [getStockData_eq_specFetch]
    exact specFetch_of_unusable env symbol timeframe days _ (fun a _ => hfail a)
  rw [heq]
  constructor
  · intro c hc
    have hm := mockTail_mem env symbol timeframe days c hc
    unfold generateMockData at hm
    exact mockGo_consistent env.rand (env.today - days) hr days 0 1 _ c hm
  · intro hd
    exact mockTail_ne_nil env symbol timeframe days
      (generateMockData_ne_nil env.rand symbol days env.today hd)

theorem claim3_witness :
    okList (getStockDataX envBase "AAPL" "1D" 3).1 ≠ [] :=
  (claim3_synthetic_fallback envBase "AAPL" "1D" 3
    (fun a => by cases a; exacts [Or.inl rfl, Or.inr rfl, Or.inl rfl, Or.inl rfl])
    (fun _ => le_refl 0)).2 (by norm_num)

/-- C3 counterexample to the claim as stated: with every adapter
unusable, a one-day request whose single window day (day 3) is a Sunday
returns the empty series. -/
theorem claim3_counterexample :
    adapterConfigured envSunday .finnhub = false ∧
    adapterData envSunday .yahoo = Except.ok [] ∧
    adapterConfigured envSunday .polygon = false ∧
    adapterConfigured envSunday .alphavantage = false ∧
    okList (getStockDataX envSunday "AAPL" "1D" 1).1 = [] := by
  refine ⟨rfl, rfl, rfl, rfl, ?_⟩
  rfl

/-- C4: no adapter error escapes the aggregator: `getStockData` yields a
value on every path, and the outer catches of `getCurrentPrice` and
`searchStocks` turn every propagated error into `null` or `[]`. -/
theorem claim4_errors_recovered (env : Env) (symbol timeframe : String) (days : Nat)
    (query : String) :
    (getStockDataX env symbol timeframe days).1.isOk = true
    ∧ (getCurrentPriceRun env symbol).isOk = true
    ∧ (searchStocksRun env query).isOk = true := by
  refine ⟨?_, ?_, ?_⟩
  · rw [getStockData_eq_specFetch]
    exact specFetch_isOk env symbol timeframe days _
  · exact eRecover_isOk _ _
  · exact eRecover_isOk _ _

/-- C5 (amended): the Alpha Vantage daily adapter returns a strictly
date-ascending series whenever the reply's object keys are distinct (as
JSON object keys are), while the Finnhub candle adapter copies the
upstream timestamp array in order, without sorting or deduplicating, so
its output is ascending and duplicate-free exactly when the upstream
array is. -/
theorem claim5_candle_ordering :
    (∀ ts : List (Int × AVDailyValues), (ts.map Prod.fst).Nodup →
      ∀ l : List Candle,
        avGetDailyTimeSeries
          (.ok { errorMessage := none, note := none, timeSeries := some ts }) = .ok l →
        l.Pairwise fun a b => a.date < b.date)
    ∧ (∀ (key : String) (r : FinnhubCandleResp), key ≠ "" → r.s = "ok" →
        (finnhubGetCandles key (.ok r)).map (fun c => c.timestamp) =
          r.t.map fun t => some (t * 1000)) := by
  constructor
  · exact avGetDailyTimeSeries_sorted
  · intro key r hk hs
    have hval : finnhubGetCandles key (.ok r) =
        (List.range r.t.length).map (finnhubCandleAt r) := by
      unfold finnhubGetCandles
      rw [if_neg hk]
      exact if_pos hs
    rw [hval, List.map_map]
    exact range_map_getD (fun t => some (t * 1000)) 0 r.t

theorem claim5_witness :
    List.Pairwise (fun a b : Candle => a.date < b.date)
      (okList (avGetDailyTimeSeries
        (.ok { errorMessage := none, note := none, timeSeries := some tsTwoDays }))) :=
  claim5_candle_ordering.1 tsTwoDays (by decide) _ rfl

/-- C5 counterexample to the claim as stated: a Finnhub reply with
timestamps `[2, 1]` produces a candle sequence that is not ascending by
timestamp. -/
theorem claim5_counterexample :
    ¬ List.Pairwise (fun a b : Candle => a.timestamp.getD 0 < b.timestamp.getD 0)
      (finnhubGetCandles "K" (.ok fhRespBad)) := by
  decide

/-- C6 (amended): Finnhub's search truncates client-side to at most 10
entries and returns `[]` (not an error) on zero matches; Yahoo's search
also returns `[]` on zero matches but performs no client-side
truncation, its length being bounded only by the number of quotes in the
upstream reply. -/
theorem claim6_search_bounds :
    (∀ (key : String) (resp : Except String FinnhubSearchResp),
      (finnhubSearchStocks key resp).length ≤ 10)
    ∧ (∀ (key : String) (items : List FinnhubSearchItem),
        (∀ it ∈ items, (it.itemType = "Common Stock" && it.symbol ≠ "") = false) →
        finnhubSearchStocks key (.ok { result := some items }) = [])
    ∧ (∀ qs : List YahooQuoteItem,
        (∀ q ∈ qs, (q.quoteType = "EQUITY" && q.symbol ≠ "") = false) →
        yahooSearchStocks (.ok { quotes := some qs }) = [])
    ∧ (∀ resp : YahooSearchResp,
        (yahooSearchStocks (.ok resp)).length ≤ (resp.quotes.getD []).length) := by
  refine ⟨?_, ?_, ?_, ?_⟩
  · intro key resp
    unfold finnhubSearchStocks
    split_ifs
    · simp
    · cases resp with
      | error e => simp
      | ok r =>
        obtain ⟨result⟩ := r
        cases result with
        | some items =>
          show (((items.filter fun it =>
            it.itemType = "Common Stock" && it.symbol ≠ "").take 10).map
              finnhubSearchEntryOf).length ≤ 10
          rw [List.length_map, List.length_take]
          exact inf_le_left
        | none => simp
  · intro key items h
    have hfil : (items.filter fun it =>
        it.itemType = "Common Stock" && it.symbol ≠ "") = [] := by
      refine List.filter_eq_nil_iff.mpr ?_
      intro a ha
      rw [h a ha]
      simp
    unfold finnhubSearchStocks
    split_ifs
    · rfl
    · show (((items.filter fun it =>
        it.itemType = "Common Stock" && it.symbol ≠ "").take 10).map
          finnhubSearchEntryOf) = []
      rw [hfil]
      rfl
  · intro qs h
    have hfil : (qs.filter fun q => q.quoteType = "EQUITY" && q.symbol ≠ "") = [] := by
      refine List.filter_eq_nil_iff.mpr ?_
      intro a ha
      rw [h a ha]
      simp
    show ((qs.filter fun q =>
      q.quoteType = "EQUITY" && q.symbol ≠ "").map yahooSearchEntryOf) = []
    rw [hfil]
    rfl
  · intro resp
    obtain ⟨quotes⟩ := resp
    cases quotes with
    | some qs =>
      show ((qs.filter fun q =>
        q.quoteType = "EQUITY" && q.symbol ≠ "").map yahooSearchEntryOf).length ≤
          (some qs |>.getD []).length
      rw [List.length_map]
      exact List.length_filter_le _ _
    | none => simp [yahooSearchStocks]

theorem claim6_witness :
    finnhubSearchStocks "K" (.ok { result := some [] }) = [] :=
  claim6_search_bounds.2.1 "K" [] (fun it h => absurd h (List.not_mem_nil it))

/-- C6 counterexample to the claim as stated: a Yahoo reply carrying 11
equity quotes produces 11 search entries, more than the claimed bound of
10. -/
theorem claim6_counterexample :
    10 < (yahooSearchStocks (.ok { quotes := some (List.replicate 11 yqEquity) })).length := by
  decide

/-- C7 (amended): the generator is a deterministic function of the random
draws, the day count and the current date, and it ignores its `symbol`
argument entirely: any two symbols give the identical series for the
same draws.  It is not keyed by symbol, and two JS calls draw fresh
`Math.random()` values, so they need not agree. -/
theorem claim7_symbol_ignored (rand : Nat → ℚ) (days : Nat) (today : Int)
    (s1 s2 : String) :
    generateMockData rand s1 days today = generateMockData rand s2 days today := rfl

/-- C7 counterexample to the claim as stated: the same symbol and day
count with two different (both valid, in `[0, 1)`) `Math.random` streams
produce different series, so a repeated call is not reproducible. -/
theorem claim7_counterexample :
    generateMockData (fun _ => 0) "AAPL" 3 7 ≠
      generateMockData (fun _ => 1 / 2) "AAPL" 3 7 := by
  intro h
  have hv := congrArg (fun l => (l.headD (candleOn 0)).volume) h
  norm_num [generateMockData, mockGo, jsGetDay, candleOn] at hv

/-- C8: the loop/viewer invariant fails under disconnects: after
`subscribe(v1, 'AAPL')` followed by v1's disconnect, the AAPL room is
empty yet the AAPL broadcast interval is still running, because the
server's `disconnect` handler stops no interval. -/
theorem claim8_loop_leak :
    roomGet (serverRun [.sub "v1" "AAPL", .disc "v1"]).rooms "AAPL" = [] ∧
    "AAPL" ∈ (serverRun [.sub "v1" "AAPL", .disc "v1"]).intervals := by
  decide

/-- C9: `filterByTimeframe` returns its input unchanged on every intraday
timeframe and on every unrecognised timeframe string, and on all
timeframes its output is a sublist (subsequence) of its input. -/
theorem claim9_filter_timeframe (env : Env) (data : List Candle) (tf : String) :
    ((tf ∈ (["1", "5", "15", "30", "60"] : List String) ∨
      tf ∉ (["1", "5", "15", "30", "60", "1D", "1W", "1M", "3M", "6M", "1Y"] : List String)) →
      filterByTimeframe env data tf = data)
    ∧ (filterByTimeframe env data tf).Sublist data := by
  refine ⟨?_, filterByTimeframe_sublist env data tf⟩
  intro h
  unfold filterByTimeframe
  split_ifs with h0 h1
  · rfl
  · rfl
  · rcases h with h | h
    · exact absurd h h1
    · have hnone : tfCutoff env tf = none := by
        simp only [List.mem_cons, List.not_mem_nil, or_false, not_or] at h
        obtain ⟨-, -, -, -, -, hd, hw, hm, h3, h6, hy⟩ := h
        unfold tfCutoff
        rw [if_neg hd, if_neg hw, if_neg hm, if_neg h3, if_neg h6, if_neg hy]
      rw [hnone]

theorem claim9_witness :
    filterByTimeframe envBase [candleOn 0] "ALL" = [candleOn 0] :=
  (claim9_filter_timeframe envBase [candleOn 0] "ALL").1 (Or.inr (by decide))

/-- C10: the built-in 7-stock demo branch of `searchStocks` is
unreachable: its guard needs Yahoo's `isConfigured` to be false, but that
check is constantly true, so the branch always yields `return []`; in
particular with Finnhub unconfigured and Yahoo returning no results a
blank query yields `[]`, not the 7 built-in entries. -/
theorem claim10_demo_branch_unreachable :
    (∀ (env : Env) (query : String), ssCommon env query = Except.ok []) ∧
    searchStocksRun envBase "" = Except.ok [] ∧
    commonStocks.length = 7 := by
  refine ⟨?_, rfl, rfl⟩
  intro env query
  unfold ssCommon
  rw [if_neg]
  rintro ⟨-, h⟩
  exact h (by simp [yahooIsConfigured])
